import Mathlib

/-!
Verification of the cross-model relation synchronization engine.

A shallow embedding, in Lean 4, of the code of this repository:

* `cloudinit/renderers.go` — the cloud-init script renderers.
* The resource-persistence listing operations (`Persistence.ListResources`,
  `Persistence.ListPendingResources`).
* The remote-relations worker tree (coordinator, per-application worker,
  event translation).  The worker implementation file itself is absent from
  the source tree — only its test suite `remoterelations_test.go` is present —
  so those definitions are modelled from the spec, constrained by the exact
  facade-call sequences the test suite pins down.
-/

namespace Juju

/-- Lifecycle stage of an entity (`params.Life`): alive, dying or dead. -/
inductive Life where
  | alive
  | dying
  | dead
  deriving DecidableEq, Repr

/-- Replace every occurrence of one character by another.  The Go `names`
code only ever replaces single characters, and the core `String.replace`
recursion does not reduce inside the kernel, so the embedding maps over the
character list instead. -/
def replaceChar (pattern repl : Char) (s : String) : String :=
  ⟨s.data.map (fun ch => if ch = pattern then repl else ch)⟩

/-- Modelled from the spec: `names.NewApplicationTag(name).String()` from the
`names.v2` dependency (not in the source tree): the tag string of an
application. -/
def applicationTag (name : String) : String := "application-" ++ name

/-- Modelled from the spec: `names.NewRelationTag(key).String()` from the
`names.v2` dependency: in the relation key, each colon of an endpoint
becomes a dot and the space separating the two endpoints becomes a hash
mark. -/
def relationTag (key : String) : String :=
  "relation-" ++ replaceChar ' ' '#' (replaceChar ':' '.' key)

/-- Modelled from the spec: `names.NewUnitTag(name).String()` from the
`names.v2` dependency: the slash of the unit name becomes a dash, so
`unit/1` becomes `unit-unit-1`. -/
def unitTag (name : String) : String := "unit-" ++ replaceChar '/' '-' name

/-- The decimal value of a digit character, `none` on a non-digit. -/
def charDigit (c : Char) : Option Nat :=
  if c.isDigit then some (c.toNat - 48) else none

/-- Parse a non-empty all-digit character list as a decimal number. -/
def digitsToNat : List Char → Nat → Option Nat
  | [], acc => some acc
  | c :: cs, acc =>
    match charDigit c with
    | none => none
    | some d => digitsToNat cs (acc * 10 + d)

/-- The characters after the last slash of a string (the whole string when it
has no slash). -/
def afterLastSlash (s : String) : String :=
  ⟨(s.data.reverse.takeWhile (fun c => c ≠ '/')).reverse⟩

/-- Modelled from the spec: the deterministic parse of the ordinal suffix of a
unit name (`names.UnitTag.Number`): the digits after the final slash. -/
def unitNumber (name : String) : Option Nat :=
  match (afterLastSlash name).data with
  | [] => none
  | _ => digitsToNat (afterLastSlash name).data 0

/-! ## cloudinit/renderers.go -/

/-- Operating systems a series can resolve to (`version.OSType`). -/
inductive OSType where
  | Ubuntu
  | Windows
  | CentOS
  | Arch
  deriving DecidableEq, Repr

/-- Modelled from the spec: `version.GetOSFromSeries` (the `version` package is
not in the source tree): resolve a series name to its operating system,
failing on an unknown series. -/
def GetOSFromSeries (series : String) : Except String OSType :=
  if series ∈ ["precise", "quantal", "trusty", "xenial"] then .ok .Ubuntu
  else if series ∈ ["win2012", "win2012r2", "win7", "win8", "win81"] then .ok .Windows
  else if series = "centos7" then .ok .CentOS
  else if series = "arch" then .ok .Arch
  else .error ("unknown OS for series: " ++ series)

/-- A command of the Windows cloud-init config (`cloudinit.command`): only its
literal text matters to rendering. -/
structure WinCommand where
  literal : String
  deriving DecidableEq, Repr

/-- The cloud-init config (`cloudinit.Config`): its attribute map, with the
`runcmd` attribute — the one `powershellRender` reads through
`conf.attrs["runcmd"].([]*command)` — carried as a typed command list. -/
structure Config where
  attrs : List (String × String)
  runcmd : List WinCommand
  deriving DecidableEq, Repr

/-- `ubuntuRender` of `cloudinit/renderers.go`: YAML-marshal the attributes
(marshalling is the external `yaml.Marshal`, passed in as a function) and
prepend the bytes of `#cloud-config` plus a newline. -/
def ubuntuRender (marshal : List (String × String) → Except String String) (conf : Config) :
    Except String String :=
  match marshal conf.attrs with
  | .error e => .error e
  | .ok data => .ok ("#cloud-config\n" ++ data)

/-- `powershellRender` of `cloudinit/renderers.go`: start the script with the
header `#ps1_sysnative` plus CRLF, then append CRLF plus the literal of each
command, in order. -/
def powershellRender (conf : Config) : String :=
  conf.runcmd.foldl (fun script value => script ++ ("\r\n" ++ value.literal)) "#ps1_sysnative\r\n"

/-- The shell renderer embedded in a `cloudinit.Renderer`
(`shell.PowershellRenderer` or `shell.BashRenderer`). -/
inductive ShellRenderer where
  | powershell
  | bash
  deriving DecidableEq, Repr

/-- Which render function a `cloudinit.Renderer` stores. -/
inductive RenderFn where
  | ubuntu
  | powershell
  deriving DecidableEq, Repr

/-- `cloudinit.Renderer`: the embedded shell renderer and the render function. -/
structure Renderer where
  shellRenderer : ShellRenderer
  renderFn : RenderFn
  deriving DecidableEq, Repr

/-- `cloudinit.NewRenderer`: resolve the series to an operating system; fail on
a resolution error, dispatch Windows and Ubuntu to their renderers, and fail
on every other operating system. -/
def NewRenderer (series : String) : Except String Renderer :=
  match GetOSFromSeries series with
  | .error e => .error e
  | .ok os =>
    match os with
    | .Windows => .ok ⟨.powershell, .powershell⟩
    | .Ubuntu => .ok ⟨.bash, .ubuntu⟩
    | _ => .error ("No renderer could be found for " ++ series)

/-- `Renderer.Render`: dispatch to the stored render function. -/
def Renderer.Render (r : Renderer) (marshal : List (String × String) → Except String String)
    (conf : Config) : Except String String :=
  match r.renderFn with
  | .ubuntu => ubuntuRender marshal conf
  | .powershell => .ok (powershellRender conf)

/-- The tail of a rendered Windows script: CRLF plus each command literal,
accumulated from the empty string. -/
def winScriptTail (cmds : List WinCommand) : String :=
  cmds.foldl (fun script value => script ++ ("\r\n" ++ value.literal)) ""

theorem foldl_append_start (cmds : List WinCommand) (a b : String) :
    cmds.foldl (fun script value => script ++ ("\r\n" ++ value.literal)) (a ++ b) =
      a ++ cmds.foldl (fun script value => script ++ ("\r\n" ++ value.literal)) b := by
  induction cmds generalizing b with
  | nil => simp
  | cons x xs ih =>
    simp only [List.foldl_cons]
    rw [String.append_assoc, ih]

theorem powershellRender_head (conf : Config) :
    powershellRender conf = "#ps1_sysnative\r\n" ++ winScriptTail conf.runcmd := by
  have h := foldl_append_start conf.runcmd "#ps1_sysnative\r\n" ""
  simpa [powershellRender, winScriptTail] using h

/-- C10: `NewRenderer` returns an error (and no renderer) for every series
whose operating system resolves to neither Windows nor Ubuntu (and for one
that does not resolve at all); for an Ubuntu series, `Render` produces the
YAML marshalling of the config attributes prefixed with the exact bytes of
`#cloud-config` plus a newline, and for a Windows series the output begins
with `#ps1_sysnative` plus CRLF. -/
theorem c10_renderer_dispatch :
    (∀ series e, GetOSFromSeries series = .error e → NewRenderer series = .error e) ∧
    (∀ series os, GetOSFromSeries series = .ok os → os ≠ .Windows → os ≠ .Ubuntu →
      NewRenderer series = .error ("No renderer could be found for " ++ series)) ∧
    (∀ series r marshal conf data, GetOSFromSeries series = .ok .Ubuntu →
      NewRenderer series = .ok r → marshal conf.attrs = .ok data →
      r.Render marshal conf = .ok ("#cloud-config\n" ++ data)) ∧
    (∀ series r marshal conf, GetOSFromSeries series = .ok .Windows →
      NewRenderer series = .ok r →
      r.Render marshal conf = .ok ("#ps1_sysnative\r\n" ++ winScriptTail conf.runcmd)) := by
  refine ⟨?_, ?_, ?_, ?_⟩
  · intro series e h
    simp [NewRenderer, h]
  · intro series os h hw hu
    cases os with
    | Ubuntu => exact absurd rfl hu
    | Windows => exact absurd rfl hw
    | CentOS => simp [NewRenderer, h]
    | Arch => simp [NewRenderer, h]
  · intro series r marshal conf data hos hr hm
    have hr2 : r = ⟨.bash, .ubuntu⟩ := by
      simp [NewRenderer, hos] at hr
      exact hr.symm
    subst hr2
    simp [Renderer.Render, ubuntuRender, hm]
  · intro series r marshal conf hos hr
    have hr2 : r = ⟨.powershell, .powershell⟩ := by
      simp [NewRenderer, hos] at hr
      exact hr.symm
    subst hr2
    simp [Renderer.Render, powershellRender_head]

/-- Witness for C10 at concrete series: an unknown series, a CentOS series, an
Ubuntu series and a Windows series, with one concrete config. -/
theorem c10_renderer_dispatch_witness :
    NewRenderer "mint" = .error "unknown OS for series: mint" ∧
    NewRenderer "centos7" = .error "No renderer could be found for centos7" ∧
    (Renderer.mk .bash .ubuntu).Render (fun _ => .ok "attrs: yaml\n")
      ⟨[("package_upgrade", "true")], []⟩ = .ok ("#cloud-config\n" ++ "attrs: yaml\n") ∧
    (Renderer.mk .powershell .powershell).Render (fun _ => .ok "")
      ⟨[], [⟨"Invoke-FirstCmd"⟩]⟩ = .ok ("#ps1_sysnative\r\n" ++ "\r\nInvoke-FirstCmd") := by
  refine ⟨?_, ?_, ?_, ?_⟩
  · exact c10_renderer_dispatch.1 "mint" _ rfl
  · exact c10_renderer_dispatch.2.1 "centos7" .CentOS rfl (by decide) (by decide)
  · exact c10_renderer_dispatch.2.2.1 "trusty" _ (fun _ => .ok "attrs: yaml\n")
      ⟨[("package_upgrade", "true")], []⟩ "attrs: yaml\n" rfl rfl rfl
  · have h := c10_renderer_dispatch.2.2.2 "win2012" ⟨.powershell, .powershell⟩
      (fun _ => .ok "") ⟨[], [⟨"Invoke-FirstCmd"⟩]⟩ rfl rfl
    simpa [winScriptTail] using h

/-! ## The resource persistence listing operations (src/unnamed/part_000) -/

/-- One stored resource document (`resourceDoc`): the two fields the listing
operations dispatch on, plus the rest of the document abstracted as `body`. -/
structure ResourceDoc where
  docID : String
  pendingID : String
  unitID : String
  body : String
  deriving DecidableEq, Repr

/-- `resource.UnitResources`: the resources tracked for one unit tag. -/
structure UnitResources (ρ : Type) where
  tag : String
  resources : List ρ
  deriving DecidableEq, Repr

/-- `resource.ServiceResources`: the service-level resources plus the per-unit
groups. -/
structure ServiceResources (ρ : Type) where
  resources : List ρ
  unitResources : List (UnitResources ρ)
  deriving DecidableEq, Repr

/-- Add one converted resource under its unit tag.  The Go code accumulates
into a map keyed by unit tag and then flattens the map; since Go map
iteration order is unspecified, the embedding fixes the first-seen order of
tags. -/
def insertUnitResource {ρ : Type} : List (UnitResources ρ) → String → ρ → List (UnitResources ρ)
  | [], tag, r => [⟨tag, [r]⟩]
  | u :: rest, tag, r =>
    if u.tag = tag then ⟨u.tag, u.resources ++ [r]⟩ :: rest
    else u :: insertUnitResource rest tag r

/-- Flatten unit-tag-keyed pairs into `UnitResources` groups, first-seen tag
order. -/
def groupUnitResources {ρ : Type} (pairs : List (String × ρ)) : List (UnitResources ρ) :=
  pairs.foldl (fun acc p => insertUnitResource acc p.1 p.2) []

/-- The document loop of `Persistence.ListResources`: skip documents with a
non-empty `PendingID`; convert each remaining document — `doc2basicResource`
lives outside the given source files, so it is passed in as the fallible
`conv` — aborting on the first conversion error; split the conversions by
`UnitID` into service-level resources and unit-tag-keyed pairs. -/
def listResourcesLoop {ρ : Type} (conv : ResourceDoc → Except String ρ) :
    List ResourceDoc → List ρ → List (String × ρ) →
    Except String (List ρ × List (String × ρ))
  | [], res, units => .ok (res, units)
  | doc :: docs, res, units =>
    if doc.pendingID ≠ "" then listResourcesLoop conv docs res units
    else
      match conv doc with
      | .error e => .error e
      | .ok r =>
        if doc.unitID = "" then listResourcesLoop conv docs (res ++ [r]) units
        else listResourcesLoop conv docs res (units ++ [(unitTag doc.unitID, r)])

/-- `Persistence.ListResources`: list the non-pending resources of a service —
the documents of the service are the `docs` the `resources` query returned —
with the unit-owned ones grouped per unit tag. -/
def ListResources {ρ : Type} (conv : ResourceDoc → Except String ρ) (docs : List ResourceDoc) :
    Except String (ServiceResources ρ) :=
  match listResourcesLoop conv docs [] [] with
  | .error e => .error e
  | .ok (res, units) => .ok ⟨res, groupUnitResources units⟩

/-- `Persistence.ListPendingResources`: list the pending resources of a
service, skipping every document with an empty `PendingID` and aborting on
the first conversion error. -/
def ListPendingResources {ρ : Type} (conv : ResourceDoc → Except String ρ) :
    List ResourceDoc → Except String (List ρ)
  | [] => .ok []
  | doc :: docs =>
    if doc.pendingID = "" then ListPendingResources conv docs
    else
      match conv doc with
      | .error e => .error e
      | .ok r =>
        match ListPendingResources conv docs with
        | .error e => .error e
        | .ok rs => .ok (r :: rs)

theorem listResourcesLoop_ok {ρ : Type} (f : ResourceDoc → ρ) (docs : List ResourceDoc)
    (res : List ρ) (units : List (String × ρ)) :
    listResourcesLoop (fun d => .ok (f d)) docs res units =
      .ok (res ++ (docs.filter (fun d => d.pendingID == "" && d.unitID == "")).map f,
           units ++ (docs.filter (fun d => d.pendingID == "" && !(d.unitID == ""))).map
             (fun d => (unitTag d.unitID, f d))) := by
  induction docs generalizing res units with
  | nil => simp [listResourcesLoop]
  | cons doc docs ih =>
    by_cases hp : doc.pendingID = ""
    · by_cases hu : doc.unitID = ""
      · simp [listResourcesLoop, hp, hu, ih]
      · simp [listResourcesLoop, hp, hu, ih]
    · simp [listResourcesLoop, hp, ih]

theorem listResourcesLoop_error {ρ : Type} (conv : ResourceDoc → Except String ρ)
    (docs : List ResourceDoc) (d : ResourceDoc) (e : String) (hd : d ∈ docs)
    (hp : d.pendingID = "") (he : conv d = .error e) :
    ∀ res units, ∃ e2, listResourcesLoop conv docs res units = .error e2 := by
  induction docs with
  | nil => cases hd
  | cons doc docs ih =>
    intro res units
    by_cases hp0 : doc.pendingID = ""
    · cases hconv : conv doc with
      | error e0 => exact ⟨e0, by simp [listResourcesLoop, hp0, hconv]⟩
      | ok r =>
        have hne : d ≠ doc := by
          intro hEq
          rw [hEq, hconv] at he
          cases he
        have hd2 : d ∈ docs := by
          cases List.mem_cons.mp hd with
          | inl h => exact absurd h hne
          | inr h => exact h
        by_cases hu : doc.unitID = ""
        · simpa [listResourcesLoop, hp0, hconv, hu] using ih hd2 _ _
        · simpa [listResourcesLoop, hp0, hconv, hu] using ih hd2 _ _
    · have hne : d ≠ doc := by
        intro hEq
        rw [hEq] at hp
        exact hp0 hp
      have hd2 : d ∈ docs := by
        cases List.mem_cons.mp hd with
        | inl h => exact absurd h hne
        | inr h => exact h
      simpa [listResourcesLoop, hp0] using ih hd2 res units

theorem listPendingResources_ok {ρ : Type} (f : ResourceDoc → ρ) (docs : List ResourceDoc) :
    ListPendingResources (fun d => .ok (f d)) docs =
      .ok ((docs.filter (fun d => !(d.pendingID == ""))).map f) := by
  induction docs with
  | nil => simp [ListPendingResources]
  | cons doc docs ih =>
    by_cases hp : doc.pendingID = ""
    · simp [ListPendingResources, hp, ih]
    · simp [ListPendingResources, hp, ih]

theorem listPendingResources_error {ρ : Type} (conv : ResourceDoc → Except String ρ)
    (docs : List ResourceDoc) (d : ResourceDoc) (e : String) (hd : d ∈ docs)
    (hp : d.pendingID ≠ "") (he : conv d = .error e) :
    ∃ e2, ListPendingResources conv docs = .error e2 := by
  induction docs with
  | nil => cases hd
  | cons doc docs ih =>
    by_cases hp0 : doc.pendingID = ""
    · have hne : d ≠ doc := by
        intro hEq
        rw [hEq] at hp
        exact hp hp0
      have hd2 : d ∈ docs := by
        cases List.mem_cons.mp hd with
        | inl h => exact absurd h hne
        | inr h => exact h
      simpa [ListPendingResources, hp0] using ih hd2
    · cases hconv : conv doc with
      | error e0 => exact ⟨e0, by simp [ListPendingResources, hp0, hconv]⟩
      | ok r =>
        have hne : d ≠ doc := by
          intro hEq
          rw [hEq, hconv] at he
          cases he
        have hd2 : d ∈ docs := by
          cases List.mem_cons.mp hd with
          | inl h => exact absurd h hne
          | inr h => exact h
        obtain ⟨e2, h2⟩ := ih hd2
        exact ⟨e2, by simp [ListPendingResources, hp0, hconv, h2]⟩

/-- C9: for every list of resource documents of a service, `ListResources` and
`ListPendingResources` partition it by pending id: `ListResources` returns
exactly the documents with empty `PendingID` — those with empty `UnitID` in
`Resources`, the rest grouped per unit tag under `UnitResources` — and
`ListPendingResources` returns exactly the documents with non-empty
`PendingID`; a document conversion error makes either operation return an
error and no result. -/
theorem c9_listing_partitions_by_pending {ρ : Type} :
    (∀ (f : ResourceDoc → ρ) (docs : List ResourceDoc),
      ListResources (fun d => .ok (f d)) docs =
        .ok ⟨(docs.filter (fun d => d.pendingID == "" && d.unitID == "")).map f,
             groupUnitResources
               ((docs.filter (fun d => d.pendingID == "" && !(d.unitID == ""))).map
                 (fun d => (unitTag d.unitID, f d)))⟩) ∧
    (∀ (f : ResourceDoc → ρ) (docs : List ResourceDoc),
      ListPendingResources (fun d => .ok (f d)) docs =
        .ok ((docs.filter (fun d => !(d.pendingID == ""))).map f)) ∧
    (∀ (conv : ResourceDoc → Except String ρ) (docs : List ResourceDoc) (d : ResourceDoc)
        (e : String), d ∈ docs → d.pendingID = "" → conv d = .error e →
      ∃ e2, ListResources conv docs = .error e2) ∧
    (∀ (conv : ResourceDoc → Except String ρ) (docs : List ResourceDoc) (d : ResourceDoc)
        (e : String), d ∈ docs → d.pendingID ≠ "" → conv d = .error e →
      ∃ e2, ListPendingResources conv docs = .error e2) := by
  refine ⟨?_, listPendingResources_ok, ?_, listPendingResources_error⟩
  · intro f docs
    simp [ListResources, listResourcesLoop_ok]
  · intro conv docs d e hd hp he
    obtain ⟨e2, h2⟩ := listResourcesLoop_error conv docs d e hd hp he [] []
    exact ⟨e2, by simp [ListResources, h2]⟩

/-- The documents of the C9 witness: one service-level resource, one
unit-owned resource and one pending resource. -/
def c9Docs : List ResourceDoc :=
  [⟨"res-spam", "", "", "spam"⟩,
   ⟨"res-eggs", "", "svc/0", "eggs"⟩,
   ⟨"res-ham", "pending-1", "", "ham"⟩]

/-- Witness for C9 at the concrete `c9Docs`: the partition of the three
documents, and the error propagation of a conversion that rejects the
service-level document (for `ListResources`) or the pending one (for
`ListPendingResources`). -/
theorem c9_listing_partitions_by_pending_witness :
    ListResources (fun d => .ok d.body) c9Docs =
      .ok ⟨["spam"], [⟨"unit-svc-0", ["eggs"]⟩]⟩ ∧
    ListPendingResources (fun d => .ok d.body) c9Docs = .ok ["ham"] ∧
    (∃ e2, ListResources (fun d => if d.body = "spam" then .error "boom" else .ok d.body)
      c9Docs = .error e2) ∧
    (∃ e2, ListPendingResources (fun d => if d.body = "ham" then .error "boom" else .ok d.body)
      c9Docs = .error e2) := by
  refine ⟨?_, ?_, ?_, ?_⟩
  · have h := (c9_listing_partitions_by_pending (ρ := String)).1 (fun d => d.body) c9Docs
    rw [h]
    rfl
  · have h := (c9_listing_partitions_by_pending (ρ := String)).2.1 (fun d => d.body) c9Docs
    rw [h]
    rfl
  · exact (c9_listing_partitions_by_pending (ρ := String)).2.2.1 _ c9Docs
      ⟨"res-spam", "", "", "spam"⟩ "boom" (by decide) rfl rfl
  · exact (c9_listing_partitions_by_pending (ρ := String)).2.2.2 _ c9Docs
      ⟨"res-ham", "pending-1", "", "ham"⟩ "boom" (by decide) (by decide) rfl

/-! ## The remote-relations worker tree

The implementation file of the `worker/remoterelations` package is absent
from the source tree; only its test suite `remoterelations_test.go` is
present.  The definitions below are therefore modelled from the spec
(sections 4, 5 and 7), with every behaviour the test suite observes —
the exact facade-call sequences and event values — taken from the tests,
which are the code of this repository. -/

/-- `params.RemoteApplication`: the fields the workers consume.  `modelUUID`
is the UUID of the offering (remote) model; `registered` marks the
consuming-side offer-back proxy. -/
structure RemoteApplication where
  name : String
  offerUUID : String
  url : String
  modelUUID : String
  registered : Bool
  deriving DecidableEq, Repr

/-- `params.RemoteEndpoint`: one endpoint descriptor. -/
structure RemoteEndpoint where
  name : String
  role : String
  interface : String
  deriving DecidableEq, Repr

/-- `params.RemoteRelation`: one relation of a remote application as resolved
by the local facade `Relations` call, with its endpoint information. -/
structure RemoteRelation where
  life : Life
  applicationName : String
  endpoint : RemoteEndpoint
  remoteEndpointName : String
  deriving DecidableEq, Repr

/-- `params.RemoteRelationUnitChange`: a changed unit inside a change event. -/
structure RemoteRelationUnitChange where
  unitId : Nat
  settings : List (String × String)
  deriving DecidableEq, Repr

/-- The central wire message, `params.RemoteRelationChangeEvent`.  `life =
none` models the Go zero value (the empty string); `suspended` is the
nullable `*bool`, `none` meaning unspecified. -/
structure RemoteRelationChangeEvent where
  life : Option Life
  applicationToken : String
  relationToken : String
  suspended : Option Bool
  changedUnits : List RemoteRelationUnitChange
  departedUnits : List Nat
  macaroons : List String
  deriving DecidableEq, Repr

/-- `params.RegisterRemoteRelationArg`: what the register call carries —
endpoint descriptors, the exported tokens and the offer UUID. -/
structure RegisterRemoteRelationArg where
  applicationToken : String
  sourceModelTag : String
  relationToken : String
  remoteEndpoint : RemoteEndpoint
  offerUUID : String
  localEndpointName : String
  deriving DecidableEq, Repr

/-- One observable action of the worker tree: a facade call (named after the
stub calls the test suite asserts) or an internal lifecycle step. -/
inductive Action where
  | remoteApplicationsCall (names : List String)
  | watchRemoteApplicationRelations (app : String)
  | workerKilled (app : String)
  | relationsCall (keys : List String)
  | controllerAPIInfoForModel (modelUUID : String)
  | exportEntities (tags : List String)
  | registerRemoteRelations (arg : RegisterRemoteRelationArg)
  | saveMacaroon (relTag mac : String)
  | importRemoteEntity (tag token : String)
  | watchLocalRelationUnits (key : String)
  | watchRelationUnits (relToken : String)
  | watchRelationSuspendedStatus (relToken : String)
  | getTokenCall (tag : String)
  | publishRelationChange (ev : RemoteRelationChangeEvent)
  | consumeRemoteRelationChange (ev : RemoteRelationChangeEvent)
  | relationUnitSettings (units : List String)
  | killLocalUnitsWatcher (key : String)
  | killRemoteUnitsWatcher (key : String)
  | killStatusWatcher (key : String)
  | discardMacaroonFor (key : String)
  | coordinatorTerminated
  deriving DecidableEq, Repr

/-- Modelled from the spec (section 6): the facade operations the workers
consume.  Pure lookups model the queries of the test double; `Except` models
the fallible calls.  `register` returns the granted macaroon and the
offering-side application token; `relationUnitSettings` gives the settings
of one unit inside the batched settings call. -/
structure Env where
  localModelUUID : String
  remoteApplications : String → Option RemoteApplication
  relations : String → Option RemoteRelation
  controllerAPIInfo : String → Option String
  exportToken : String → String
  getToken : String → String
  register : RegisterRemoteRelationArg → Except String (String × String)
  publish : RemoteRelationChangeEvent → Except String Unit
  relationUnitSettings : String → List (String × String)

/-- Cached per-relation state of an application worker: the relation life, the
exported local tokens, the imported remote application token and the
macaroon obtained at registration. -/
structure RelationCache where
  life : Life
  localAppToken : String
  relationToken : String
  remoteAppToken : String
  macaroon : String
  deriving DecidableEq, Repr

/-- The state of one Remote Application Worker: its application and the
relation sub-tree it owns, keyed by relation key. -/
structure AppWorkerState where
  app : RemoteApplication
  relations : List (String × RelationCache)
  deriving DecidableEq, Repr

/-- The state of the Remote Relations Coordinator: the application workers it
owns, keyed by application name. -/
structure CoordState where
  workers : List (String × AppWorkerState)
  deriving DecidableEq, Repr

/-- Association-list lookup by string key (the registry maps of the worker
tree). -/
def lookupStr {β : Type} : List (String × β) → String → Option β
  | [], _ => none
  | (k, v) :: rest, key => if k = key then some v else lookupStr rest key

/-- Association-list removal by string key. -/
def removeStr {β : Type} : List (String × β) → String → List (String × β)
  | [], _ => []
  | (k, v) :: rest, key =>
    if k = key then removeStr rest key else (k, v) :: removeStr rest key

/-! ### Event translation (section 4.3) -/

/-- Modelled from the spec: build one outbound `RemoteRelationChangeEvent`
from a relation-units change batch.  Each changed unit that is not also
departed in the same batch gets its settings from one batched
`RelationUnitSettings` call (recorded as a single action listing every such
unit tag) and its numeric id from `unitNumber`; departed units map to their
numeric ids only, with no settings fetch. -/
def buildChangeEvent (settingsOf : String → List (String × String))
    (appToken relToken : String) (macs : List String)
    (changed : List (String × Nat)) (departed : List String) :
    RemoteRelationChangeEvent × List Action :=
  let changedNames := (changed.map Prod.fst).filter (fun n => !(departed.contains n))
  let fetchTrace :=
    if changedNames.isEmpty then ([] : List Action)
    else [Action.relationUnitSettings (changedNames.map unitTag)]
  ({ life := none, applicationToken := appToken, relationToken := relToken,
     suspended := none,
     changedUnits := changedNames.filterMap
       (fun n => (unitNumber n).map (fun i => ⟨i, settingsOf n⟩)),
     departedUnits := departed.filterMap unitNumber,
     macaroons := macs }, fetchTrace)

/-- One remote relation status change (`watcher.RelationStatusChange`): the
relation life and the plain — not nullable — suspended flag of the watch
record. -/
structure RelationStatusChange where
  life : Life
  suspended : Bool
  suspendedReason : String
  deriving DecidableEq, Repr

/-- Modelled from the spec and `TestRemoteRelationsDyingConsumes`: translate a
remote status-change batch into the event consumed locally.  The most
recent change of the batch supplies the life, and the suspended pointer is
always set explicitly to the address of the suspended flag of the change. -/
def relationStatusChangeEvent (appToken relToken : String)
    (batch : List RelationStatusChange) : Option RemoteRelationChangeEvent :=
  match batch.getLast? with
  | none => none
  | some ch =>
    some { life := some ch.life, applicationToken := appToken,
           relationToken := relToken, suspended := some ch.suspended,
           changedUnits := [], departedUnits := [], macaroons := [] }

/-- C2: for a local relation-unit change batch with changed `unit/1` (any
iteration order of the singleton changed map, taken as any permutation) and
departed `unit/2`, the built event has `ChangedUnits` equal to exactly one
entry with unit id 1 and the settings fetched for that unit in one batched
facade call, and `DepartedUnits` equal to `[2]`; the numeric unit id is the
deterministic parse `unitNumber` of the ordinal suffix of the unit name. -/
theorem c2_unit_change_translation (settingsOf : String → List (String × String))
    (appToken relToken mac : String) (changed : List (String × Nat))
    (hperm : changed.Perm [("unit/1", 2)]) :
    buildChangeEvent settingsOf appToken relToken [mac] changed ["unit/2"] =
      ({ life := none, applicationToken := appToken, relationToken := relToken,
         suspended := none,
         changedUnits := [⟨1, settingsOf "unit/1"⟩],
         departedUnits := [2], macaroons := [mac] },
       [Action.relationUnitSettings ["unit-unit-1"]]) ∧
    unitNumber "unit/1" = some 1 ∧ unitNumber "unit/2" = some 2 := by
  have h := List.perm_singleton.mp hperm
  subst h
  exact ⟨rfl, rfl, rfl⟩

/-- Witness for C2 at the concrete batch of `TestLocalRelationsChangedNotifies`:
changed map `unit/1` at version 2 with settings `foo = bar`, departed
`unit/2`. -/
theorem c2_unit_change_translation_witness :
    buildChangeEvent (fun _ => [("foo", "bar")]) "token-django" "token-db2:db django:db"
      ["apimac"] [("unit/1", 2)] ["unit/2"] =
      ({ life := none, applicationToken := "token-django",
         relationToken := "token-db2:db django:db", suspended := none,
         changedUnits := [⟨1, [("foo", "bar")]⟩],
         departedUnits := [2], macaroons := ["apimac"] },
       [Action.relationUnitSettings ["unit-unit-1"]]) ∧
    unitNumber "unit/1" = some 1 ∧ unitNumber "unit/2" = some 2 :=
  c2_unit_change_translation (fun _ => [("foo", "bar")]) "token-django"
    "token-db2:db django:db" "apimac" [("unit/1", 2)] (List.Perm.refl _)

/-- The status-change batch of `TestRemoteRelationsDyingConsumes`: life dying
and no explicit suspension — the suspended flag of the watch record keeps
its zero value, false. -/
def c3DyingBatch : List RelationStatusChange := [⟨Life.dying, false, ""⟩]

/-- Counterexample to C3 as stated: the event built from a remote
status-change batch reporting life dying with no explicit suspension does
NOT have an unspecified `Suspended`; it carries an explicit pointer to
false, exactly as `TestRemoteRelationsDyingConsumes` expects
(`Suspended: &suspended` with `suspended := false`). -/
theorem c3_counterexample :
    relationStatusChangeEvent "token-offer-db2-uuid" "token-db2:db django:db" c3DyingBatch =
      some { life := some Life.dying, applicationToken := "token-offer-db2-uuid",
             relationToken := "token-db2:db django:db", suspended := some false,
             changedUnits := [], departedUnits := [], macaroons := [] } ∧
    some false ≠ (none : Option Bool) := by
  exact ⟨rfl, by decide⟩

/-- C3 amended: the `Suspended` field of a `RemoteRelationChangeEvent` is
tri-state (a nullable boolean).  An event built from a remote status-change
batch always sets `Suspended` to an explicit pointer to the suspended flag
of the most recent change — pointer-to-false for a `Life: Dying` batch with
no suspension — while an event built from a unit-change batch leaves
`Suspended` unspecified (`nil`); the explicit false remains distinguishable
from unspecified. -/
theorem c3_suspended_tristate (appToken relToken : String)
    (batch : List RelationStatusChange) (ch : RelationStatusChange)
    (hlast : batch.getLast? = some ch) :
    (∃ ev, relationStatusChangeEvent appToken relToken batch = some ev ∧
      ev.suspended = some ch.suspended ∧ ev.life = some ch.life) ∧
    (∀ (settingsOf : String → List (String × String)) (a r : String)
        (macs : List String) (changed : List (String × Nat)) (departed : List String),
      (buildChangeEvent settingsOf a r macs changed departed).1.suspended = none) ∧
    some false ≠ (none : Option Bool) := by
  refine ⟨?_, ?_, by decide⟩
  · refine ⟨{ life := some ch.life, applicationToken := appToken,
              relationToken := relToken, suspended := some ch.suspended,
              changedUnits := [], departedUnits := [], macaroons := [] }, ?_, rfl, rfl⟩
    simp [relationStatusChangeEvent, hlast]
  · intro settingsOf a r macs changed departed
    rfl

/-- Witness for C3 amended at the concrete dying batch: the status event
carries pointer-to-false, while a unit-change event carries no suspension
opinion. -/
theorem c3_suspended_tristate_witness :
    (∃ ev, relationStatusChangeEvent "token-offer-db2-uuid" "token-db2:db django:db"
        c3DyingBatch = some ev ∧ ev.suspended = some false ∧ ev.life = some Life.dying) ∧
    (buildChangeEvent (fun _ => []) "token-django" "token-db2:db django:db" ["apimac"]
      [("unit/1", 2)] []).1.suspended = none := by
  have h := c3_suspended_tristate "token-offer-db2-uuid" "token-db2:db django:db"
    c3DyingBatch ⟨Life.dying, false, ""⟩ rfl
  exact ⟨h.1, h.2.1 (fun _ => []) "token-django" "token-db2:db django:db" ["apimac"]
    [("unit/1", 2)] []⟩

/-! ### The coordinator (section 4.1) -/

/-- Modelled from the spec: the per-name step of the coordinator
applications-batch handler.  A name the facade no longer resolves has its
worker killed and removed; a name that resolves and has a worker already is
left alone; any other resolvable name — whether or not it is flagged
`registered` — gets a fresh worker and a relations-watch subscription, as
`TestRegisteredApplicationNotRegistered` observes for a registered
application. -/
def appStep (env : Env) (acc : CoordState × List Action) (name : String) :
    CoordState × List Action :=
  match env.remoteApplications name with
  | none =>
    match lookupStr acc.1.workers name with
    | none => acc
    | some _ => (⟨removeStr acc.1.workers name⟩, acc.2 ++ [Action.workerKilled name])
  | some app =>
    match lookupStr acc.1.workers name with
    | some _ => acc
    | none =>
      (⟨acc.1.workers ++ [(name, ⟨app, []⟩)]⟩,
        acc.2 ++ [Action.watchRemoteApplicationRelations name])

/-- Modelled from the spec: the coordinator applications-batch handler
(`handleApplicationChanges`): resolve the whole batch with one
`RemoteApplications` call, then fold `appStep` over the reported names. -/
def handleApplicationChanges (env : Env) (st : CoordState) (batch : List String) :
    CoordState × List Action :=
  batch.foldl (appStep env) (st, [Action.remoteApplicationsCall batch])

theorem lookupStr_removeStr {β : Type} (l : List (String × β)) (k n : String) :
    lookupStr (removeStr l k) n = if n = k then none else lookupStr l n := by
  induction l with
  | nil => simp [removeStr, lookupStr]
  | cons p rest ih =>
    obtain ⟨k0, v⟩ := p
    by_cases h0 : k0 = k
    · subst h0
      by_cases hn : n = k0
      · subst hn
        simp [removeStr, lookupStr, ih]
      · have hns : ¬ k0 = n := fun h => hn h.symm
        simp [removeStr, lookupStr, ih, hn, hns]
    · by_cases hkn : k0 = n
      · subst hkn
        have hnk : ¬ k0 = k := h0
        simp [removeStr, lookupStr, h0, hnk]
      · simp [removeStr, lookupStr, ih, h0, hkn]

theorem lookupStr_append {β : Type} (l1 l2 : List (String × β)) (n : String) :
    lookupStr (l1 ++ l2) n =
      match lookupStr l1 n with
      | some v => some v
      | none => lookupStr l2 n := by
  induction l1 with
  | nil => simp [lookupStr]
  | cons p rest ih =>
    obtain ⟨k0, v⟩ := p
    by_cases h : k0 = n
    · simp [lookupStr, h]
    · simp [lookupStr, h, ih]

theorem lookupStr_none_not_mem {β : Type} (l : List (String × β)) (n : String)
    (h : lookupStr l n = none) : n ∉ l.map Prod.fst := by
  induction l with
  | nil => simp
  | cons p rest ih =>
    obtain ⟨k0, v⟩ := p
    by_cases hk : k0 = n
    · simp [lookupStr, hk] at h
    · have h2 : lookupStr rest n = none := by simpa [lookupStr, hk] using h
      intro hmem
      rw [List.map_cons] at hmem
      rcases List.mem_cons.mp hmem with h1 | h1
      · exact hk h1.symm
      · exact ih h2 h1

theorem removeStr_sublist {β : Type} (l : List (String × β)) (k : String) :
    (removeStr l k).Sublist l := by
  induction l with
  | nil => simp [removeStr]
  | cons p rest ih =>
    obtain ⟨k0, v⟩ := p
    by_cases h : k0 = k
    · simp only [removeStr, h, if_pos rfl]
      exact ih.cons _
    · simp only [removeStr, if_neg h]
      exact ih.cons₂ _

theorem appStep_lookup (env : Env) (acc : CoordState × List Action) (name n : String) :
    (lookupStr (appStep env acc name).1.workers n).isSome =
      (if n = name then (env.remoteApplications name).isSome
       else (lookupStr acc.1.workers n).isSome) := by
  cases happ : env.remoteApplications name with
  | none =>
    cases hw : lookupStr acc.1.workers name with
    | none =>
      by_cases hn : n = name
      · subst hn
        simp [appStep, happ, hw]
      · simp [appStep, happ, hw, hn]
    | some w =>
      by_cases hn : n = name
      · subst hn
        simp [appStep, happ, hw, lookupStr_removeStr]
      · simp [appStep, happ, hw, lookupStr_removeStr, hn]
  | some app =>
    cases hw : lookupStr acc.1.workers name with
    | some w =>
      by_cases hn : n = name
      · subst hn
        simp [appStep, happ, hw]
      · simp [appStep, happ, hw, hn]
    | none =>
      by_cases hn : n = name
      · subst hn
        simp [appStep, happ, hw, lookupStr_append, lookupStr]
      · have hn2 : ¬ name = n := fun h => hn h.symm
        cases hl : lookupStr acc.1.workers n with
        | none => simp [appStep, happ, hw, lookupStr_append, lookupStr, hn, hn2, hl]
        | some v => simp [appStep, happ, hw, lookupStr_append, lookupStr, hn, hn2, hl]

theorem appStep_nodup (env : Env) (acc : CoordState × List Action) (name : String)
    (h : (acc.1.workers.map Prod.fst).Nodup) :
    ((appStep env acc name).1.workers.map Prod.fst).Nodup := by
  cases happ : env.remoteApplications name with
  | none =>
    cases hw : lookupStr acc.1.workers name with
    | none => simpa [appStep, happ, hw] using h
    | some w =>
      simp only [appStep, happ, hw]
      exact ((removeStr_sublist acc.1.workers name).map Prod.fst).nodup h
  | some app =>
    cases hw : lookupStr acc.1.workers name with
    | some w => simpa [appStep, happ, hw] using h
    | none =>
      simp only [appStep, happ, hw, List.map_append, List.map_cons, List.map_nil]
      refine List.Nodup.append h (List.nodup_singleton _) ?_
      intro a ha hb
      rcases List.mem_singleton.mp hb with rfl
      exact lookupStr_none_not_mem _ _ hw ha

theorem appStep_trace (env : Env) (st : CoordState) (tr : List Action) (name : String) :
    appStep env (st, tr) name =
      ((appStep env (st, []) name).1, tr ++ (appStep env (st, []) name).2) := by
  cases happ : env.remoteApplications name with
  | none =>
    cases hw : lookupStr st.workers name with
    | none => simp [appStep, happ, hw]
    | some w => simp [appStep, happ, hw]
  | some app =>
    cases hw : lookupStr st.workers name with
    | none => simp [appStep, happ, hw]
    | some w => simp [appStep, happ, hw]

theorem foldl_appStep_trace (env : Env) (batch : List String) :
    ∀ (st : CoordState) (tr : List Action),
      batch.foldl (appStep env) (st, tr) =
        ((batch.foldl (appStep env) (st, [])).1,
          tr ++ (batch.foldl (appStep env) (st, [])).2) := by
  induction batch with
  | nil => intro st tr; simp
  | cons x xs ih =>
    intro st tr
    simp only [List.foldl_cons]
    rcases hx : appStep env (st, []) x with ⟨s1, d1⟩
    have hxtr : appStep env (st, tr) x = (s1, tr ++ d1) := by
      rw [appStep_trace env st tr x, hx]
    rw [hxtr, ih s1 (tr ++ d1), ih s1 d1]
    simp [List.append_assoc]

theorem foldl_appStep_lookup (env : Env) (batch : List String) :
    ∀ (st : CoordState) (tr : List Action) (name : String),
      (lookupStr ((batch.foldl (appStep env) (st, tr)).1.workers) name).isSome =
        (if name ∈ batch then (env.remoteApplications name).isSome
         else (lookupStr st.workers name).isSome) := by
  induction batch with
  | nil => intro st tr name; simp
  | cons x xs ih =>
    intro st tr name
    simp only [List.foldl_cons]
    rcases hsp : appStep env (st, tr) x with ⟨s1, d1⟩
    rw [ih s1 d1]
    have hstep : ∀ n2, (lookupStr s1.workers n2).isSome =
        (if n2 = x then (env.remoteApplications x).isSome
         else (lookupStr st.workers n2).isSome) := by
      intro n2
      have h2 := appStep_lookup env (st, tr) x n2
      rw [hsp] at h2
      exact h2
    by_cases hx : name = x
    · subst hx
      by_cases hmem : name ∈ xs
      · simp [hmem]
      · simp [hmem, hstep]
    · by_cases hmem : name ∈ xs
      · simp [hmem, List.mem_cons, hx]
      · simp [hmem, List.mem_cons, hx, hstep]

theorem foldl_appStep_nodup (env : Env) (batch : List String) :
    ∀ (st : CoordState) (tr : List Action), (st.workers.map Prod.fst).Nodup →
      ((batch.foldl (appStep env) (st, tr)).1.workers.map Prod.fst).Nodup := by
  induction batch with
  | nil => intro st tr h; simpa using h
  | cons x xs ih =>
    intro st tr h
    simp only [List.foldl_cons]
    rcases hsp : appStep env (st, tr) x with ⟨s1, d1⟩
    have h1 : (s1.workers.map Prod.fst).Nodup := by
      have h2 := appStep_nodup env (st, tr) x h
      rwa [hsp] at h2
    exact ih s1 d1 h1

theorem foldl_appStep_killed (env : Env) (batch : List String) :
    ∀ (st : CoordState) (tr : List Action) (name : String), name ∈ batch →
      env.remoteApplications name = none →
      (lookupStr st.workers name).isSome = true →
      Action.workerKilled name ∈ (batch.foldl (appStep env) (st, tr)).2 := by
  induction batch with
  | nil => intro st tr name h; cases h
  | cons x xs ih =>
    intro st tr name hmem happ hlook
    simp only [List.foldl_cons]
    by_cases hx : name = x
    · subst hx
      cases hw : lookupStr st.workers name with
      | none => rw [hw] at hlook; cases hlook
      | some w =>
        have hstep : appStep env (st, tr) name =
            (⟨removeStr st.workers name⟩, tr ++ [Action.workerKilled name]) := by
          simp [appStep, happ, hw]
        rw [hstep, foldl_appStep_trace env xs]
        simp
    · have hmem2 : name ∈ xs := by
        rcases List.mem_cons.mp hmem with h | h
        · exact absurd h hx
        · exact h
      have hpres : (lookupStr (appStep env (st, tr) x).1.workers name).isSome = true := by
        rw [appStep_lookup]
        simp [hx, hlook]
      rcases hsp : appStep env (st, tr) x with ⟨s1, d1⟩
      rw [hsp] at hpres
      exact ih s1 d1 name hmem2 happ hpres

/-- The worker set C1 claims after a batch: the reported names minus those
whose `RemoteApplication` is flagged `registered`. -/
def c1ClaimedWorkers (env : Env) (batch : List String) : List String :=
  batch.filter
    (fun n => !(((env.remoteApplications n).map RemoteApplication.registered).getD false))

/-- The environment of the C1 counterexample: one remote application `db2`,
flagged `registered`, as in `TestRegisteredApplicationNotRegistered`. -/
def c1Env : Env :=
  { localModelUUID := "local-model-uuid",
    remoteApplications := fun n =>
      if n = "db2" then
        some ⟨"db2", "offer-db2-uuid", "db2url", "remote-model-uuid", true⟩
      else none,
    relations := fun _ => none,
    controllerAPIInfo := fun _ => none,
    exportToken := fun tag => "token-" ++ tag,
    getToken := fun tag => "token-" ++ tag,
    register := fun _ => .error "unexpected register",
    publish := fun _ => .ok (),
    relationUnitSettings := fun _ => [] }

/-- Counterexample to C1 as stated: after the batch `[db2]` with `db2`
registered, the live worker set is `[db2]` — a worker is spawned and the
relations watcher started, exactly as the test suite expects — whereas the
claim predicts the empty set (the batch minus registered names). -/
theorem c1_counterexample :
    (handleApplicationChanges c1Env ⟨[]⟩ ["db2"]).1.workers.map Prod.fst = ["db2"] ∧
    c1ClaimedWorkers c1Env ["db2"] = [] ∧
    (["db2"] : List String) ≠ [] ∧
    (handleApplicationChanges c1Env ⟨[]⟩ ["db2"]).2 =
      [Action.remoteApplicationsCall ["db2"],
       Action.watchRemoteApplicationRelations "db2"] :=
  ⟨rfl, rfl, by decide, rfl⟩

/-- C1 amended: after processing one applications-watch batch from any
coordinator state, a name has a live worker exactly when it either was
reported in the batch and its `RemoteApplication` still resolves — whether
or not it is flagged `registered`; the flag only suppresses the
per-relation registration handshake, not the worker — or was not reported
and already had a worker.  Worker names stay free of duplicates (each new
name spawns exactly one worker), and a reported name whose application is
gone has its worker killed and removed. -/
theorem c1_worker_set_after_batch (env : Env) (st : CoordState) (batch : List String) :
    (∀ name, (lookupStr (handleApplicationChanges env st batch).1.workers name).isSome =
      (if name ∈ batch then (env.remoteApplications name).isSome
       else (lookupStr st.workers name).isSome)) ∧
    ((st.workers.map Prod.fst).Nodup →
      ((handleApplicationChanges env st batch).1.workers.map Prod.fst).Nodup) ∧
    (∀ name, name ∈ batch → env.remoteApplications name = none →
      (lookupStr st.workers name).isSome = true →
      Action.workerKilled name ∈ (handleApplicationChanges env st batch).2) := by
  refine ⟨?_, ?_, ?_⟩
  · intro name
    exact foldl_appStep_lookup env batch st _ name
  · intro h
    exact foldl_appStep_nodup env batch st _ h
  · intro name hmem happ hlook
    exact foldl_appStep_killed env batch st _ name hmem happ hlook

/-- The coordinator state of the C1 witness: a worker for `mysql` already
live (its application since removed from the facade), none for `db2`. -/
def c1WitnessState : CoordState :=
  ⟨[("mysql", ⟨⟨"mysql", "offer-mysql-uuid", "mysqlurl", "remote-model-uuid", false⟩, []⟩)]⟩

/-- Witness for C1 amended at the batch `[db2, mysql]` against `c1Env`: `db2`
resolves (registered) and gains a worker, `mysql` no longer resolves and
its worker is killed and removed; no duplicate worker names. -/
theorem c1_worker_set_after_batch_witness :
    (lookupStr (handleApplicationChanges c1Env c1WitnessState ["db2", "mysql"]).1.workers
      "db2").isSome = true ∧
    (lookupStr (handleApplicationChanges c1Env c1WitnessState ["db2", "mysql"]).1.workers
      "mysql").isSome = false ∧
    ((handleApplicationChanges c1Env c1WitnessState ["db2", "mysql"]).1.workers.map
      Prod.fst).Nodup ∧
    Action.workerKilled "mysql" ∈
      (handleApplicationChanges c1Env c1WitnessState ["db2", "mysql"]).2 := by
  have h := c1_worker_set_after_batch c1Env c1WitnessState ["db2", "mysql"]
  refine ⟨?_, ?_, ?_, ?_⟩
  · rw [h.1 "db2"]
    decide
  · rw [h.1 "mysql"]
    decide
  · exact h.2.1 (by decide)
  · exact h.2.2 "mysql" (by decide) (by decide) (by decide)

/-! ### The application worker (section 4.2) -/

/-- The terminal Dying change event published when a relation is removed or
reported dying: the cached application token and macaroon, the relation
token as re-read with `GetToken`, no unit changes and no suspension
opinion, as `TestRemoteRelationsDying` and `TestLocalRelationsRemoved`
expect. -/
def dyingEvent (appToken relToken mac : String) : RemoteRelationChangeEvent :=
  { life := some Life.dying, applicationToken := appToken, relationToken := relToken,
    suspended := none, changedUnits := [], departedUnits := [], macaroons := [mac] }

/-- Modelled from the spec: the best-effort publish of a terminal event: the
call is attempted, and a delivery failure is only logged — the trace records
the attempt whatever the outcome. -/
def bestEffortPublish (env : Env) (ev : RemoteRelationChangeEvent) : List Action :=
  match env.publish ev with
  | .ok _ => [Action.publishRelationChange ev]
  | .error _ => [Action.publishRelationChange ev]

theorem bestEffortPublish_eq (env : Env) (ev : RemoteRelationChangeEvent) :
    bestEffortPublish env ev = [Action.publishRelationChange ev] := by
  unfold bestEffortPublish
  cases env.publish ev <;> rfl

/-- Modelled from the spec (section 4.2): tear one relation sub-tree down:
publish the terminal Dying event best-effort, then kill the local unit,
remote unit and status watchers of the relation and discard its
token/macaroon cache entry. -/
def teardownRelation (env : Env) (st : AppWorkerState) (key : String) (rc : RelationCache) :
    AppWorkerState × List Action :=
  let ev := dyingEvent rc.localAppToken (env.getToken (relationTag key)) rc.macaroon
  (⟨st.app, removeStr st.relations key⟩,
    [Action.getTokenCall (relationTag key)] ++ bestEffortPublish env ev ++
      [Action.killLocalUnitsWatcher key, Action.killRemoteUnitsWatcher key,
       Action.killStatusWatcher key, Action.discardMacaroonFor key])

/-- The argument of the remote register call: the exported application and
relation tokens, the source model tag, the local endpoint descriptor, the
offer UUID and the remote endpoint name. -/
def mkRegisterArg (env : Env) (st : AppWorkerState) (key : String) (rel : RemoteRelation) :
    RegisterRemoteRelationArg :=
  { applicationToken := env.exportToken (applicationTag rel.applicationName),
    sourceModelTag := "model-" ++ env.localModelUUID,
    relationToken := env.exportToken (relationTag key),
    remoteEndpoint := rel.endpoint,
    offerUUID := st.app.offerUUID,
    localEndpointName := rel.remoteEndpointName }

/-- Modelled from the spec (section 4.2): the registration handshake and
watcher start-up at first sighting of a relation, pinned by
`assertRemoteRelationsWorkers`: resolve the remote controller, export the
local application and relation tags, register the relation remotely
(obtaining the macaroon and the offering-side application token), persist
the macaroon, import the remote application token, and only then start the
local unit, remote unit and remote status watchers.  A failing step leaves
the worker untouched so the relation is retried on the next batch. -/
def registerRelation (env : Env) (st : AppWorkerState) (key : String) (rel : RemoteRelation) :
    AppWorkerState × List Action :=
  match env.controllerAPIInfo st.app.modelUUID with
  | none => (st, [Action.controllerAPIInfoForModel st.app.modelUUID])
  | some _ =>
    let arg := mkRegisterArg env st key rel
    let pre := [Action.controllerAPIInfoForModel st.app.modelUUID,
      Action.exportEntities [applicationTag rel.applicationName, relationTag key],
      Action.registerRemoteRelations arg]
    match env.register arg with
    | .error _ => (st, pre)
    | .ok (mac, offTok) =>
      (⟨st.app, st.relations ++ [(key,
          ⟨rel.life, arg.applicationToken, arg.relationToken, offTok, mac⟩)]⟩,
        pre ++ [Action.saveMacaroon (relationTag key) mac,
          Action.importRemoteEntity (applicationTag st.app.name) offTok,
          Action.watchLocalRelationUnits key,
          Action.watchRelationUnits arg.relationToken,
          Action.watchRelationSuspendedStatus arg.relationToken])

/-- Modelled from the spec (section 4.2): the per-relation-key handler of an
application worker.  A key the facade no longer resolves, or one reported
dying, tears the relation down (after the best-effort Dying publish); a key
already tracked and still alive is a no-op, the handshake having run once; a
fresh non-alive key is ignored; a fresh alive key of a `registered`
application is skipped (`TestRegisteredApplicationNotRegistered`); any other
fresh alive key runs the registration handshake. -/
def relationChanged (env : Env) (st : AppWorkerState) (key : String) :
    AppWorkerState × List Action :=
  match env.relations key with
  | none =>
    match lookupStr st.relations key with
    | none => (st, [])
    | some rc => teardownRelation env st key rc
  | some rel =>
    match lookupStr st.relations key with
    | some rc =>
      match rel.life with
      | .alive => (st, [])
      | _ => teardownRelation env st key rc
    | none =>
      if rel.life ≠ Life.alive then (st, [])
      else if st.app.registered then (st, [])
      else registerRelation env st key rel

/-- Modelled from the spec: the relations-batch handler of an application
worker: resolve the whole batch with one `Relations` call, then handle each
key in order. -/
def handleRelationsChange (env : Env) (st : AppWorkerState) (keys : List String) :
    AppWorkerState × List Action :=
  keys.foldl
    (fun acc key =>
      let r := relationChanged env acc.1 key
      (r.1, acc.2 ++ r.2))
    (st, [Action.relationsCall keys])

/-- C6: on first sighting of a new, resolvable, alive relation key of a
non-registered application, the registration handshake performs, in this
order: resolve the remote controller, export the local entity tokens for
the application and the relation, call the remote register operation (with
the endpoint descriptor, the exported tokens and the offer UUID) obtaining
a macaroon, persist that macaroon against the relation tag, import and
cache the remote-assigned application token — and only then are the local
unit watcher, remote unit watcher and remote status watcher started. -/
theorem c6_registration_handshake (env : Env) (st : AppWorkerState) (key : String)
    (rel : RemoteRelation) (info mac offTok : String)
    (hrel : env.relations key = some rel)
    (halive : rel.life = Life.alive)
    (hnew : lookupStr st.relations key = none)
    (hreg : st.app.registered = false)
    (hinfo : env.controllerAPIInfo st.app.modelUUID = some info)
    (hok : env.register (mkRegisterArg env st key rel) = .ok (mac, offTok)) :
    relationChanged env st key =
      (⟨st.app, st.relations ++ [(key,
          ⟨rel.life, env.exportToken (applicationTag rel.applicationName),
           env.exportToken (relationTag key), offTok, mac⟩)]⟩,
       [Action.controllerAPIInfoForModel st.app.modelUUID,
        Action.exportEntities [applicationTag rel.applicationName, relationTag key],
        Action.registerRemoteRelations (mkRegisterArg env st key rel),
        Action.saveMacaroon (relationTag key) mac,
        Action.importRemoteEntity (applicationTag st.app.name) offTok,
        Action.watchLocalRelationUnits key,
        Action.watchRelationUnits (env.exportToken (relationTag key)),
        Action.watchRelationSuspendedStatus (env.exportToken (relationTag key))]) := by
  simp only [mkRegisterArg] at hok
  simp [relationChanged, hrel, hnew, halive, hreg, registerRelation, hinfo, hok,
    mkRegisterArg]

/-- The remote application of the concrete handshake scenario of the test
suite (`db2`, not registered). -/
def c6App : RemoteApplication :=
  ⟨"db2", "offer-db2-uuid", "db2url", "remote-model-uuid", false⟩

/-- The relation of the concrete handshake scenario: alive, local application
`django`, local endpoint `db2`, remote endpoint name `data`. -/
def c6Rel : RemoteRelation :=
  ⟨Life.alive, "django", ⟨"db2", "requires", "db2"⟩, "data"⟩

/-- The environment of the concrete handshake scenario, mirroring the facade
doubles of `assertRemoteRelationsWorkers`. -/
def c6Env : Env :=
  { localModelUUID := "local-model-uuid",
    remoteApplications := fun n => if n = "db2" then some c6App else none,
    relations := fun k => if k = "db2:db django:db" then some c6Rel else none,
    controllerAPIInfo := fun u => if u = "remote-model-uuid" then some "1.2.3.4:1234" else none,
    exportToken := fun tag => "token-" ++ tag,
    getToken := fun tag => "token-" ++ tag,
    register := fun _ => .ok ("apimac", "token-offer-db2-uuid"),
    publish := fun _ => .ok (),
    relationUnitSettings := fun _ => [("foo", "bar")] }

/-- Witness for C6 at the concrete scenario: the full ordered call trace of
the handshake, ending in the three watcher starts. -/
theorem c6_registration_handshake_witness :
    relationChanged c6Env ⟨c6App, []⟩ "db2:db django:db" =
      (⟨c6App, [("db2:db django:db",
          ⟨Life.alive, "token-application-django", "token-relation-db2.db#django.db",
           "token-offer-db2-uuid", "apimac"⟩)]⟩,
       [Action.controllerAPIInfoForModel "remote-model-uuid",
        Action.exportEntities ["application-django", "relation-db2.db#django.db"],
        Action.registerRemoteRelations
          (mkRegisterArg c6Env ⟨c6App, []⟩ "db2:db django:db" c6Rel),
        Action.saveMacaroon "relation-db2.db#django.db" "apimac",
        Action.importRemoteEntity "application-db2" "token-offer-db2-uuid",
        Action.watchLocalRelationUnits "db2:db django:db",
        Action.watchRelationUnits "token-relation-db2.db#django.db",
        Action.watchRelationSuspendedStatus "token-relation-db2.db#django.db"]) := by
  have h := c6_registration_handshake c6Env ⟨c6App, []⟩ "db2:db django:db" c6Rel
    "1.2.3.4:1234" "apimac" "token-offer-db2-uuid" rfl rfl rfl rfl rfl rfl
  rw [h]
  rfl

/-- C8: the registration handshake is idempotent per relation: re-delivery of
an already-tracked, still-alive relation key in a later relations-watch
batch without an intervening removal is a no-op — the batch is resolved
with one `Relations` call, no export-entities or register call is
re-issued, and the worker state is unchanged. -/
theorem c8_handshake_idempotent (env : Env) (st : AppWorkerState) (key : String)
    (rel : RemoteRelation) (rc : RelationCache)
    (hrel : env.relations key = some rel)
    (halive : rel.life = Life.alive)
    (htracked : lookupStr st.relations key = some rc) :
    handleRelationsChange env st [key] = (st, [Action.relationsCall [key]]) := by
  simp [handleRelationsChange, relationChanged, hrel, htracked, halive]

/-- The worker state of the C8 witness: the handshake for the relation has
already run, its cache entry is present. -/
def c8St : AppWorkerState :=
  ⟨c6App, [("db2:db django:db",
     ⟨Life.alive, "token-application-django", "token-relation-db2.db#django.db",
      "token-offer-db2-uuid", "apimac"⟩)]⟩

/-- Witness for C8: re-delivering the registered key issues only the
`Relations` call and leaves the worker state unchanged. -/
theorem c8_handshake_idempotent_witness :
    handleRelationsChange c6Env c8St ["db2:db django:db"] =
      (c8St, [Action.relationsCall ["db2:db django:db"]]) :=
  c8_handshake_idempotent c6Env c8St "db2:db django:db" c6Rel
    ⟨Life.alive, "token-application-django", "token-relation-db2.db#django.db",
     "token-offer-db2-uuid", "apimac"⟩ rfl rfl rfl

/-- C5: a relation reported as removed locally (no longer resolvable), or
whose life is reported dying, yields a publish attempt of a change event
with life Dying strictly before the kill of its local unit, remote unit and
status watchers and the discard of its token/macaroon cache entry — for
every environment, in particular one whose publish delivery fails, since
the teardown trace does not depend on the publish result. -/
theorem c5_dying_published_before_teardown (env : Env) (st : AppWorkerState)
    (key : String) (rc : RelationCache)
    (htracked : lookupStr st.relations key = some rc)
    (hgone : env.relations key = none ∨
      ∃ rel, env.relations key = some rel ∧ rel.life = Life.dying) :
    relationChanged env st key =
      (⟨st.app, removeStr st.relations key⟩,
       [Action.getTokenCall (relationTag key),
        Action.publishRelationChange
          (dyingEvent rc.localAppToken (env.getToken (relationTag key)) rc.macaroon),
        Action.killLocalUnitsWatcher key, Action.killRemoteUnitsWatcher key,
        Action.killStatusWatcher key, Action.discardMacaroonFor key]) ∧
    (dyingEvent rc.localAppToken (env.getToken (relationTag key)) rc.macaroon).life =
      some Life.dying := by
  constructor
  · rcases hgone with hnone | ⟨rel, hrel, hdying⟩
    · simp [relationChanged, hnone, htracked, teardownRelation, bestEffortPublish_eq]
    · simp [relationChanged, hrel, htracked, hdying, teardownRelation, bestEffortPublish_eq]
  · rfl

/-- The environment of the C5 witness: the relation is gone from the facade
and the publish delivery fails — the Dying attempt still precedes the
teardown. -/
def c5Env : Env :=
  { c6Env with relations := fun _ => none, publish := fun _ => .error "failed" }

/-- Witness for C5 at the concrete removed relation with a failing publish
delivery. -/
theorem c5_dying_published_before_teardown_witness :
    relationChanged c5Env c8St "db2:db django:db" =
      (⟨c6App, []⟩,
       [Action.getTokenCall "relation-db2.db#django.db",
        Action.publishRelationChange
          (dyingEvent "token-application-django" "token-relation-db2.db#django.db" "apimac"),
        Action.killLocalUnitsWatcher "db2:db django:db",
        Action.killRemoteUnitsWatcher "db2:db django:db",
        Action.killStatusWatcher "db2:db django:db",
        Action.discardMacaroonFor "db2:db django:db"]) := by
  have h := c5_dying_published_before_teardown c5Env c8St "db2:db django:db"
    ⟨Life.alive, "token-application-django", "token-relation-db2.db#django.db",
     "token-offer-db2-uuid", "apimac"⟩ rfl (Or.inl rfl)
  rw [h.1]
  rfl

/-! ### Failure semantics of translation (section 4.4) and hierarchical
cancellation (section 5) -/

/-- The wrapped publish error of section 4.4 (`errors.Annotatef`): the
publishing-relation-change prefix identifying the relation and the remote
model, a colon and a space, then the cause. -/
def publishErrorMessage (relToken remoteModelUUID cause : String) : String :=
  "publishing relation change " ++ relToken ++ " to remote model " ++
    remoteModelUUID ++ ": " ++ cause

/-- Modelled from the spec (section 4.4): issue the publish call for an event
and wrap a failure into the fatal worker error. -/
def publishRelationChangeCall (env : Env) (remoteModelUUID : String)
    (ev : RemoteRelationChangeEvent) : Except String Unit :=
  match env.publish ev with
  | .ok _ => .ok ()
  | .error cause => .error (publishErrorMessage ev.relationToken remoteModelUUID cause)

/-- Modelled from the spec: one local relation-units change processed by the
owning worker: build the event from the batch, publish it; a publish
failure is fatal to the worker — its loop aborts with the wrapped error. -/
def processLocalUnitsChange (env : Env) (remoteModelUUID appToken relToken mac : String)
    (changed : List (String × Nat)) (departed : List String) :
    Except String (List Action) :=
  let evtr := buildChangeEvent env.relationUnitSettings appToken relToken [mac]
    changed departed
  match publishRelationChangeCall env remoteModelUUID evtr.1 with
  | .ok _ => .ok (evtr.2 ++ [Action.publishRelationChange evtr.1])
  | .error e => .error e

/-- Outcome of one worker: still running, or failed with an error. -/
inductive WorkerOutcome where
  | running
  | failed (e : String)
  deriving DecidableEq, Repr

/-- Modelled from the spec (sections 4.1 and 7): the coordinator reaction to
the death of a child worker: a voluntary stop removes it from the table; a
death with an error is fatal to the coordinator itself, which fails with
that same error. -/
def coordinatorOnChildDeath (st : CoordState) (name : String) (err : Option String) :
    CoordState × WorkerOutcome :=
  match err with
  | none => (⟨removeStr st.workers name⟩, .running)
  | some e => (st, .failed e)

/-- The observable outcome, at the owning-worker and at the coordinator
level, of one local units change. -/
def systemAfterLocalUnitsChange (env : Env) (st : CoordState) (name : String)
    (remoteModelUUID appToken relToken mac : String)
    (changed : List (String × Nat)) (departed : List String) :
    WorkerOutcome × WorkerOutcome :=
  match processLocalUnitsChange env remoteModelUUID appToken relToken mac
      changed departed with
  | .ok _ => (.running, .running)
  | .error e => (.failed e, (coordinatorOnChildDeath st name (some e)).2)

/-- The environment of the C4 scenario: the facade double of
`TestRemoteRelationsChangedError`, whose publish call fails with `failed`. -/
def c4Env : Env :=
  { c6Env with publish := fun _ => .error "failed" }

/-- Counterexample to C4 as stated: with a failing publish call, not only the
owning worker terminates — the error is not a voluntary stop, so the
coordinator loop fails with the same wrapped error, exactly as
`TestRemoteRelationsChangedError` observes by reading the wrapped publish
error off the killed top-level worker. -/
theorem c4_counterexample :
    (systemAfterLocalUnitsChange c4Env ⟨[]⟩ "db2" "remote-model-uuid" "token-django"
        "token-db2:db django:db" "apimac" [] ["unit/1"]).2 =
      WorkerOutcome.failed
        (publishErrorMessage "token-db2:db django:db" "remote-model-uuid" "failed") ∧
    (systemAfterLocalUnitsChange c4Env ⟨[]⟩ "db2" "remote-model-uuid" "token-django"
        "token-db2:db django:db" "apimac" [] ["unit/1"]).2 ≠ WorkerOutcome.running :=
  ⟨rfl, by decide⟩

/-- C4 amended: a failing publish call for any relation of a worker is fatal
to the owning Remote Application Worker, which terminates with the wrapped
error `publishing relation change … to remote model …: <cause>` — the
failure is not confined to the single relation — and, the death carrying an
error that is no voluntary stop, it propagates to the coordinator, which
fails with the very same error (tearing the whole worker tree down) rather
than keeping its own loop alive. -/
theorem c4_publish_failure_fatal (env : Env) (st : CoordState)
    (name remoteModelUUID appToken relToken mac cause : String)
    (changed : List (String × Nat)) (departed : List String)
    (hfail : env.publish (buildChangeEvent env.relationUnitSettings appToken relToken
      [mac] changed departed).1 = .error cause) :
    systemAfterLocalUnitsChange env st name remoteModelUUID appToken relToken mac
        changed departed =
      (.failed (publishErrorMessage relToken remoteModelUUID cause),
       .failed (publishErrorMessage relToken remoteModelUUID cause)) := by
  simp [buildChangeEvent] at hfail
  simp [systemAfterLocalUnitsChange, processLocalUnitsChange, publishRelationChangeCall,
    coordinatorOnChildDeath, buildChangeEvent, hfail]

/-- Witness for C4 amended at the concrete scenario of
`TestRemoteRelationsChangedError`: a departed-only change whose publish
fails with `failed`. -/
theorem c4_publish_failure_fatal_witness :
    systemAfterLocalUnitsChange c4Env ⟨[]⟩ "db2" "remote-model-uuid" "token-django"
        "token-db2:db django:db" "apimac" [] ["unit/1"] =
      (.failed (publishErrorMessage "token-db2:db django:db" "remote-model-uuid" "failed"),
       .failed (publishErrorMessage "token-db2:db django:db" "remote-model-uuid" "failed")) :=
  c4_publish_failure_fatal c4Env ⟨[]⟩ "db2" "remote-model-uuid" "token-django"
    "token-db2:db django:db" "apimac" "failed" [] ["unit/1"] rfl

/-- Modelled from the spec (section 5): the teardown trace of one application
worker: kill the three leaf watchers of every relation in its sub-tree,
then report the worker itself killed. -/
def killAppWorkerTrace (name : String) (w : AppWorkerState) : List Action :=
  (w.relations.flatMap (fun p =>
    [Action.killLocalUnitsWatcher p.1, Action.killRemoteUnitsWatcher p.1,
     Action.killStatusWatcher p.1])) ++ [Action.workerKilled name]

/-- Modelled from the spec (section 5): killing the coordinator kills every
application-worker sub-tree, and the coordinator reports its own
termination only after all of them have reported theirs. -/
def killCoordinatorTrace (st : CoordState) : List Action :=
  (st.workers.flatMap (fun p => killAppWorkerTrace p.1 p.2)) ++ [Action.coordinatorTerminated]

/-- C7: killing the coordinator transitively kills every spawned application
worker and every leaf watcher of every relation sub-tree, and each of them
reaches killed state strictly before the coordinator terminates: the
coordinator-terminated step is the last of the teardown trace and every
kill lies before it — no watcher is orphaned, from any reachable state. -/
theorem c7_hierarchical_cancellation (st : CoordState) :
    (killCoordinatorTrace st).getLast? = some Action.coordinatorTerminated ∧
    (∀ name w, (name, w) ∈ st.workers →
      Action.workerKilled name ∈ (killCoordinatorTrace st).dropLast) ∧
    (∀ name w key rc, (name, w) ∈ st.workers → (key, rc) ∈ w.relations →
      Action.killLocalUnitsWatcher key ∈ (killCoordinatorTrace st).dropLast ∧
      Action.killRemoteUnitsWatcher key ∈ (killCoordinatorTrace st).dropLast ∧
      Action.killStatusWatcher key ∈ (killCoordinatorTrace st).dropLast) := by
  have hdrop : (killCoordinatorTrace st).dropLast =
      st.workers.flatMap (fun p => killAppWorkerTrace p.1 p.2) := by
    simp [killCoordinatorTrace]
  refine ⟨?_, ?_, ?_⟩
  · simp [killCoordinatorTrace]
  · intro name w hmem
    rw [hdrop]
    refine List.mem_flatMap.mpr ⟨(name, w), hmem, ?_⟩
    simp [killAppWorkerTrace]
  · intro name w key rc hmem hrel
    rw [hdrop]
    have hk : ∀ a, a ∈ [Action.killLocalUnitsWatcher key,
        Action.killRemoteUnitsWatcher key, Action.killStatusWatcher key] →
        a ∈ killAppWorkerTrace name w := by
      intro a ha
      simp only [killAppWorkerTrace, List.mem_append]
      left
      exact List.mem_flatMap.mpr ⟨(key, rc), hrel, ha⟩
    exact ⟨List.mem_flatMap.mpr ⟨(name, w), hmem, hk _ (by simp)⟩,
      List.mem_flatMap.mpr ⟨(name, w), hmem, hk _ (by simp)⟩,
      List.mem_flatMap.mpr ⟨(name, w), hmem, hk _ (by simp)⟩⟩

/-- The application worker of the C7 witness: `db2` with one registered
relation. -/
def c7Worker : AppWorkerState :=
  ⟨c6App, [("db2:db django:db",
     ⟨Life.alive, "token-application-django", "token-relation-db2.db#django.db",
      "token-offer-db2-uuid", "apimac"⟩)]⟩

/-- The coordinator state of the C7 witness: one live worker. -/
def c7State : CoordState := ⟨[("db2", c7Worker)]⟩

/-- Witness for C7 at the concrete one-worker, one-relation state. -/
theorem c7_hierarchical_cancellation_witness :
    (killCoordinatorTrace c7State).getLast? = some Action.coordinatorTerminated ∧
    Action.workerKilled "db2" ∈ (killCoordinatorTrace c7State).dropLast ∧
    Action.killStatusWatcher "db2:db django:db" ∈ (killCoordinatorTrace c7State).dropLast := by
  have h := c7_hierarchical_cancellation c7State
  exact ⟨h.1, h.2.1 "db2" c7Worker (by decide),
    (h.2.2 "db2" c7Worker "db2:db django:db"
      ⟨Life.alive, "token-application-django", "token-relation-db2.db#django.db",
       "token-offer-db2-uuid", "apimac"⟩ (by decide) (by decide)).2.2⟩

end Juju
